import Mathlib

/-!
Shallow embedding of the settlement-analysis core of the
SouthPoleStationFoundation repository (file `utils.py`), together with
theorems checking the specification's claims against it.

Conventions used throughout:
* a pandas/numpy `NaN` (a missing survey reading) is modelled as
  `none : Option ℚ`; IEEE comparisons against `NaN` are false, which the
  `Bool`-valued comparison helpers below mirror;
* float arithmetic is modelled exactly over `ℚ`; `DataFrame.round(3)` is
  modelled by `round3` (numpy rounds halves to even, Mathlib's `round`
  rounds halves up; no statement below sits on an exact `.0005` tie);
* a `datetime` is modelled by the pair of its calendar year and its
  proleptic-Gregorian ordinal (`datetime.toordinal`), both carried as data;
* a Python exception is modelled by `Except`: raising aborts the rest of
  the computation, exactly as in the single-threaded script.
-/

namespace SPSF

/-- IEEE-style subtraction on possibly-missing values: `NaN` propagates. -/
def osub (a b : Option ℚ) : Option ℚ :=
  match a, b with
  | some x, some y => some (x - y)
  | _, _ => none

/-- Model of `DataFrame.round(3)`: round to three decimal places. -/
def round3 (q : ℚ) : ℚ := (round (q * 1000) : ℤ) / 1000

/-- Normalise one endpoint of a Python slice `l[a:b]` (negative indices
count from the end, out-of-range indices clamp). -/
def pyNorm (len : ℕ) (i : ℤ) : ℕ :=
  if i < 0 then (len + i).toNat else min len i.toNat

/-- Python slice `l[a:b]`, as used by `DataFrame.iloc[a:b]`. -/
def pySlice (l : List α) (a b : ℤ) : List α :=
  (l.take (pyNorm l.length b)).drop (pyNorm l.length a)

/-- Ordinal of January 1st of year `y`, as `datetime(y,1,1).toordinal()`.
For the positive years that occur here Lean's `Int` division agrees with
Python's floor division. -/
def jan1Ord (y : ℤ) : ℤ :=
  365 * (y - 1) + (y - 1) / 4 - (y - 1) / 100 + (y - 1) / 400 + 1

/-- Ordinal of the survey date `2022-01-07`, hard-dropped by
`calc_forecast_settlement` (line 104 of `utils.py`). -/
def excludedOrd : ℤ := jan1Ord 2022 + 6

/-- Ordinal of the survey date `2010-11-02`, dropped before differencing
(line 92 of `utils.py`). -/
def ord20101102 : ℤ := jan1Ord 2010 + 305

/-- Ordinal of the survey date `2010-11-03`, dropped before differencing
(line 92 of `utils.py`). -/
def ord20101103 : ℤ := jan1Ord 2010 + 306

/-- One column of the survey table: the readings of one monitor point in
chronological order, `none` when the point was not surveyed that date. -/
abbrev Col := List (Option ℚ)

/-- The baseline of a column: `survey_long.groupby('dummy').first()`
(line 67 of `utils.py`) returns the first non-missing entry. -/
def firstValue (col : Col) : Option ℚ := (col.filterMap id).head?

/-- Cumulative settlement of one column:
`settlement = survey_long.apply(lambda row: firstValue - row, axis=1)`
(line 87 of `utils.py`); `NaN` propagates through the subtraction. -/
def settlementCol (col : Col) : Col :=
  col.map (fun v =>
    match firstValue col, v with
    | some b, some x => some (b - x)
    | _, _ => none)

/-- A date-indexed settlement value: (date ordinal, value). -/
abbrev DRow := ℤ × Option ℚ

/-- Drop the two duplicate 2010 surveys before differencing, as
`settlement.drop(['2010-11-02', '2010-11-03'], axis=0)` (line 92).
The historical survey table always contains both dates. -/
def dropBadDates (rows : List DRow) : List DRow :=
  rows.filter (fun r => decide (r.1 ≠ ord20101102) && decide (r.1 ≠ ord20101103))

/-- Inter-survey settlement change in inches:
`settlement.drop(...).diff().mul(12)` (line 92).  The first row has no
predecessor and is missing. -/
def settlement_delta (rows : List DRow) : List DRow :=
  match dropBadDates rows with
  | [] => []
  | r :: t =>
      (r.1, none) ::
        List.zipWith (fun cur prev => (cur.1, (osub cur.2 prev.2).map (· * 12))) t (r :: t)

/-- Elapsed days between chronologically consecutive rows:
`settlement_delta.index.to_series().diff().dt.days` (line 97). -/
def diffDaysList (rows : List DRow) : List (ℤ × Option ℤ) :=
  match dropBadDates rows with
  | [] => []
  | r :: t =>
      (r.1, (none : Option ℤ)) ::
        List.zipWith (fun (cur prev : DRow) => (cur.1, some (cur.1 - prev.1))) t (r :: t)

/-- Result of one annualised-rate cell.  IEEE float division produces
`±inf` for a nonzero numerator over zero days and `NaN` for `0/0`;
`NaN` is the missing-value marker. -/
inductive RateVal where
  | missing
  | posInf
  | negInf
  | val (q : ℚ)
deriving DecidableEq

/-- One cell of `settlement_rate = settlement_delta.div(diffDays).mul(365).round(3)`
(line 99 of `utils.py`), following IEEE semantics of the float division. -/
def rateOf (δ : Option ℚ) (days : Option ℤ) : RateVal :=
  match δ, days with
  | some x, some d =>
      if d = 0 then
        if x = 0 then .missing else if 0 < x then .posInf else .negInf
      else .val (round3 (x / (d : ℚ) * 365))
  | _, _ => .missing

/-- The annualised settlement rate column (line 99 of `utils.py`).
`diffDays` shares the delta table's index, so the division is positional. -/
def settlement_rate (rows : List DRow) : List (ℤ × RateVal) :=
  List.zipWith (fun (d : DRow) (y : ℤ × Option ℤ) => (d.1, rateOf d.2 y.2))
    (settlement_delta rows) (diffDaysList rows)

/-- Differential settlement of one beam on one date, in inches: the rows
of a beam are sorted by `beamEnd` (`'MP_E_N' < 'MP_W_S'`), grouped and
differenced keeping the last row, then multiplied by 12
(line 200 of `utils.py`), so the value is `(west/south - east/north) * 12`. -/
def beamDiffVal (en ws : Option ℚ) : Option ℚ :=
  (osub ws en).map (· * 12)

/-- Beam slope: the differential divided by the beam length
(`beamSlope.iloc[:,1:].div(beamSlope.beamLength, axis=0)`, line 213). -/
def beamSlopeVal (en ws : Option ℚ) (len : ℚ) : Option ℚ :=
  (beamDiffVal en ws).map (· / len)

/-- IEEE `v >= c` on a possibly-`NaN` value: false for `NaN`. -/
def geF (v : Option ℚ) (c : ℚ) : Bool :=
  match v with
  | some x => decide (c ≤ x)
  | none => false

/-- IEEE `abs(v) < c`: false for `NaN`. -/
def absLtF (v : Option ℚ) (c : ℚ) : Bool :=
  match v with
  | some x => decide (|x| < c)
  | none => false

/-- IEEE `abs(v) >= c`: false for `NaN`. -/
def absGeF (v : Option ℚ) (c : ℚ) : Bool :=
  match v with
  | some x => decide (c ≤ |x|)
  | none => false

/-- IEEE `abs(v) > c`: false for `NaN`. -/
def absGtF (v : Option ℚ) (c : ℚ) : Bool :=
  match v with
  | some x => decide (c < |x|)
  | none => false

/-- IEEE `abs(v) == c`: false for `NaN`. -/
def absEqF (v : Option ℚ) (c : ℚ) : Bool :=
  match v with
  | some x => decide (|x| = c)
  | none => false

/-- Arrow direction of a beam: `np.where(beamDiff >= 0, 0, 180)`
(line 573 of `utils.py`).  `NaN >= 0` is false, so a missing differential
receives the concrete angle 180. -/
def beamDirVal (d : Option ℚ) : ℤ :=
  if geF d 0 then 0 else 180

/-- Direction after the vertical-beam adjustment: non-horizontal beams
get 90 degrees subtracted (line 579 of `utils.py`). -/
def beamDirAdj (isHoriz : Bool) (d : Option ℚ) : ℤ :=
  if isHoriz then beamDirVal d else beamDirVal d - 90

/-- Marker symbol from `np.select([abs(d)>0, abs(d)==0], [...], default='x')`
(lines 585-587 of `utils.py`): the first true condition wins, `NaN`
falls through to the default. -/
def beamSymbolVal (d : Option ℚ) : String :=
  if absGtF d 0 then "triangle-right"
  else if absEqF d 0 then "circle-open"
  else "x"

/-- Differential-settlement text colour (lines 590-592 of `utils.py`). -/
def beamDiffColorVal (d : Option ℚ) : String :=
  if absLtF d (3/2) then "black"
  else if absGeF d (3/2) && absLtF d 2 then "orange"
  else if absGeF d 2 then "red"
  else "blue"

/-- Beam-slope severity colour (lines 595-597 of `utils.py`).  The source's
fourth condition tests `abs(beamDiff) >= 1/8` -- the differential, not the
slope -- so both arguments are taken here, in the source's order. -/
def beamSlopeColorVal (slope diff : Option ℚ) : String :=
  if absLtF slope (1/32) then "black"
  else if absGeF slope (1/32) && absLtF slope (1/16) then "gold"
  else if absGeF slope (1/16) && absLtF slope (1/8) then "orange"
  else if absGeF diff (1/8) then "red"
  else "blue"

/-- A survey datetime: calendar year plus proleptic-Gregorian ordinal. -/
structure SDate where
  year : ℤ
  ord : ℤ
deriving DecidableEq

/-- One row of a settlement-like table: its date and its per-column values. -/
abbrev SRow := SDate × List (Option ℚ)

/-- `settlement_clean = settlement.drop("2022-01-07", axis=0)`
(line 104 of `utils.py`).  The pipeline's settlement table always
contains that label (`drop` would raise otherwise); every concrete table
used below does too. -/
def cleanRows (rows : List SRow) : List SRow :=
  rows.filter (fun r => decide (r.1.ord ≠ excludedOrd))

/-- The trailing forecast window
`settlement_clean.iloc[(len - nsurvey):len]` (line 105 of `utils.py`),
with Python's negative-index slice semantics. -/
def windowRows (rows : List SRow) (ns : ℕ) : List SRow :=
  pySlice (cleanRows rows) (((cleanRows rows).length : ℤ) - (ns : ℤ)) ((cleanRows rows).length : ℤ)

/-- The regression abscissa: the window dates as ordinals (line 118). -/
def windowXs (rows : List SRow) (ns : ℕ) : List ℤ :=
  (windowRows rows ns).map (fun r => r.1.ord)

/-- Column `j` of the forecast window. -/
def colVals (rows : List SRow) (ns : ℕ) (j : ℕ) : Col :=
  (windowRows rows ns).map (fun r => r.2.getD j none)

/-- `starting_settlement = settlementInterp.iloc[-1]` (line 108), column `j`. -/
def colStart (rows : List SRow) (ns : ℕ) (j : ℕ) : Option ℚ :=
  match (windowRows rows ns).getLast? with
  | some r => r.2.getD j none
  | none => none

/-- Ordinary-least-squares slope of `ys` against `xs`, the quantity
`stats.linregress` returns as `slope`. -/
def olsSlope (xs : List ℤ) (ys : List ℚ) : ℚ :=
  let n : ℚ := xs.length
  let sx : ℚ := (xs.map (fun x => (x : ℚ))).sum
  let sy : ℚ := ys.sum
  let sxy : ℚ := (List.zipWith (fun (x : ℤ) (y : ℚ) => (x : ℚ) * y) xs ys).sum
  let sxx : ℚ := (xs.map (fun x => (x : ℚ) * (x : ℚ))).sum
  (n * sxy - sx * sy) / (n * sxx - sx * sx)

/-- `stats.linregress` applied to a column that may contain `NaN`:
any `NaN` observation makes every returned statistic `NaN` (scipy does
not drop missing values); otherwise the slope is the OLS slope. -/
def linregressSlope (xs : List ℤ) (ys : List (Option ℚ)) : Option ℚ :=
  if ys.any Option.isNone then none else some (olsSlope xs (ys.filterMap id))

/-- The regression slope of window column `j` (line 124 of `utils.py`). -/
def colSlope (rows : List SRow) (ns : ℕ) (j : ℕ) : Option ℚ :=
  linregressSlope (windowXs rows ns) (colVals rows ns j)

/-- One projected cell: `starting_settlement[column] + slope * val`
(line 131), rounded by the final `.round(3)` (line 136);
`NaN` in either operand propagates. -/
def forecastColumn (s m : Option ℚ) (d : ℤ) : Option ℚ :=
  match s, m with
  | some sv, some mv => some (round3 (sv + mv * d))
  | _, _ => none

/-- scipy's guard: `linregress` raises `ValueError` when all abscissa
values are identical. -/
def allEqual (xs : List ℤ) : Bool :=
  match xs with
  | [] => true
  | x :: t => t.all (fun y => decide (y = x))

/-- Number of columns carried through the projection (the width of the
window's last row). -/
def ncolsOf (rows : List SRow) (ns : ℕ) : ℕ :=
  match (windowRows rows ns).getLast? with
  | some r => r.2.length
  | none => 0

/-- `calc_forecast_settlement(settlement, nsurvey, nyears)`
(lines 103-143 of `utils.py`), returning the `settlementProj` table,
indexed by ordinal (the anchor date followed by the synthetic January 1st
dates).  Python exceptions are modelled by `Except.error` carrying the
exception class name: `drop` raises `KeyError` when the 2022 label is
absent; `index.year[-1]` / `index[nsurvey-1]` raise `IndexError`;
`linregress` raises `ValueError` on an all-identical abscissa.  For
`nsurvey = 0` Python's `index[-1]` differs from `get? (0 - 1)`, but that
case already dies with `IndexError` on the empty window. -/
def calc_forecast_settlement (rows : List SRow) (nsurvey nyears : ℕ) :
    Except String (List (ℤ × List (Option ℚ))) :=
  if rows.any (fun r => decide (r.1.ord = excludedOrd)) = false then .error "KeyError"
  else
    match (windowRows rows nsurvey).getLast?, (windowRows rows nsurvey)[nsurvey - 1]? with
    | some lastRow, some rN =>
        if allEqual (windowXs rows nsurvey) = true then .error "ValueError"
        else
          .ok ((rN.1.ord :: (List.range nyears).map (fun k => jan1Ord (lastRow.1.year + (k : ℤ) + 1))).map
            (fun x => (x, (List.range lastRow.2.length).map
              (fun j => forecastColumn (colStart rows nsurvey j) (colSlope rows nsurvey j) (x - rN.1.ord)))))
    | _, _ => .error "IndexError"

/-- Sum of `f` over a list, for the plane-fit normal-equation sums. -/
def sumBy (l : List α) (f : α → ℚ) : ℚ := (l.map f).sum

/-- Determinant of the normal-equation matrix `AᵀA` for the plane fit
`z ≈ a*x + b*y + c` (lines 359-366 of `utils.py`): `A` has rows
`[x, y, 1]`, so `AᵀA` depends only on the point coordinates. -/
def detOf (xys : List (ℚ × ℚ)) : ℚ :=
  let n : ℚ := xys.length
  let sx := sumBy xys (fun p => p.1)
  let sy := sumBy xys (fun p => p.2)
  let sxx := sumBy xys (fun p => p.1 * p.1)
  let sxy := sumBy xys (fun p => p.1 * p.2)
  let syy := sumBy xys (fun p => p.2 * p.2)
  sxx * (syy * n - sy * sy) - sxy * (sxy * n - sy * sx) + sx * (sxy * sy - syy * sx)

/-- Coordinate projection of a list of `(x, y, z)` points. -/
def xyOf (pts : List (ℚ × ℚ × ℚ)) : List (ℚ × ℚ) :=
  pts.map (fun p => (p.1, p.2.1))

/-- The solution `fit = (AᵀA)⁻¹ Aᵀ b` of the plane normal equations
(line 366 of `utils.py`), written by Cramer's rule; meaningful when
`detOf (xyOf pts) ≠ 0`. -/
def fitCoeffs (pts : List (ℚ × ℚ × ℚ)) : ℚ × ℚ × ℚ :=
  let n : ℚ := pts.length
  let sx := sumBy pts (fun p => p.1)
  let sy := sumBy pts (fun p => p.2.1)
  let sz := sumBy pts (fun p => p.2.2)
  let sxx := sumBy pts (fun p => p.1 * p.1)
  let sxy := sumBy pts (fun p => p.1 * p.2.1)
  let syy := sumBy pts (fun p => p.2.1 * p.2.1)
  let sxz := sumBy pts (fun p => p.1 * p.2.2)
  let syz := sumBy pts (fun p => p.2.1 * p.2.2)
  let d := sxx * (syy * n - sy * sy) - sxy * (sxy * n - sy * sx) + sx * (sxy * sy - syy * sx)
  ((sxz * (syy * n - sy * sy) - sxy * (syz * n - sy * sz) + sx * (syz * sy - syy * sz)) / d,
   (sxx * (syz * n - sy * sz) - sxz * (sxy * n - sy * sx) + sx * (sxy * sz - syz * sx)) / d,
   (sxx * (syy * sz - syz * sy) - sxy * (sxy * sz - syz * sx) + sxz * (sxy * sy - syy * sx)) / d)

/-- The fitted plane of a fully-observed point set: `none` when the
normal-equation matrix is singular (numpy's `.I` raises there). -/
def planeFit (pts : List (ℚ × ℚ × ℚ)) : Option (ℚ × ℚ × ℚ) :=
  if detOf (xyOf pts) = 0 then none else some (fitCoeffs pts)

/-- Column mean over the valid entries, as pandas `DataFrame.mean()`
(line 347 of `utils.py`): `NaN` entries are skipped. -/
def meanValid (zs : Col) : ℚ :=
  (zs.filterMap id).sum / ((zs.filterMap id).length : ℚ)

/-- Mean-plane residuals `df - mean` (line 348): missing stays missing. -/
def meanResiduals (zs : Col) : Col :=
  zs.map (Option.map (fun z => z - meanValid zs))

/-- One monitor-point row of `floorElevPlot` / `gradeBeamElevPlot`:
identifier, plan coordinates, and the elevation per survey date. -/
structure MPData where
  name : String
  mpX : ℚ
  mpY : ℚ
  zs : Col
deriving DecidableEq

/-- The two letter-level groups the plane fits iterate over
(`pods = ['A', 'B']`, line 337 of `utils.py`). -/
def pods : List Char := ['A', 'B']

/-- Pod membership: `df = plot[[pod in s for s in plot.index]]`
(line 344 of `utils.py`) keeps a point when the pod letter occurs
anywhere in its identifier. -/
def podFilter (pod : Char) (tbl : List MPData) : List MPData :=
  tbl.filter (fun r => r.name.contains pod)

/-- The coordinates a pod contributes to the design matrix `A`
(lines 354-365): every row of the pod, regardless of missing elevations. -/
def coords (df : List MPData) : List (ℚ × ℚ) :=
  df.map (fun r => (r.mpX, r.mpY))

/-- Elevation column `i` of a pod. -/
def colZ (df : List MPData) (i : ℕ) : Col :=
  df.map (fun r => r.zs.getD i none)

/-- Fitted-plane residuals of one pod and one date (lines 358-369 of
`utils.py`): `fit = (AᵀA)⁻¹ Aᵀ b`, `errors = b - A fit`.  A singular
`AᵀA` makes `.I` raise `LinAlgError` (modelled by `.error ()`); a `NaN`
in `b` makes every coefficient and every residual `NaN` without raising. -/
def fitErrorsCol (xys : List (ℚ × ℚ)) (zs : Col) : Except Unit Col :=
  if detOf xys = 0 then .error ()
  else if zs.any Option.isNone then .ok (zs.map (fun _ => none))
  else
    let zv := zs.filterMap id
    let pts := List.zipWith (fun (xy : ℚ × ℚ) (z : ℚ) => (xy.1, xy.2, z)) xys zv
    let abc := fitCoeffs pts
    .ok (List.zipWith
      (fun (xy : ℚ × ℚ) (z : ℚ) => some (z - (abc.1 * xy.1 + abc.2.1 * xy.2 + abc.2.2)))
      xys zv)

/-- A Python `for` loop collecting one result per element, aborting at
the first exception. -/
def forEachE (f : α → Except ε β) : List α → Except ε (List β)
  | [] => .ok []
  | a :: t =>
      match f a with
      | .error e => .error e
      | .ok b =>
          match forEachE f t with
          | .error e => .error e
          | .ok bs => .ok (b :: bs)

/-- The loop body for one pod and one survey column: the fitted-plane
residuals, tagged with their pod letter and column index. -/
def podFitCol (tbl : List MPData) (pod : Char) (i : ℕ) : Except Unit (Char × ℕ × Col) :=
  match fitErrorsCol (coords (podFilter pod tbl)) (colZ (podFilter pod tbl) i) with
  | .error e => .error e
  | .ok errs => .ok (pod, i, errs)

/-- The per-pod loop `for col in df.columns[2:]` (line 352 of `utils.py`). -/
def podFitLoop (tbl : List MPData) (ndates : ℕ) (pod : Char) :
    Except Unit (List (Char × ℕ × Col)) :=
  forEachE (podFitCol tbl pod) (List.range ndates)

/-- The fitted-plane part of `calc_plane_error` (lines 343-386 of
`utils.py`): for each pod letter and each of the `ndates` survey columns,
the fitted-plane residuals; the pod results are concatenated as
`pd.concat` does.  An exception anywhere aborts the whole computation,
as in the source. -/
def calc_plane_error_fit (tbl : List MPData) (ndates : ℕ) :
    Except Unit (List (Char × ℕ × Col)) :=
  match forEachE (podFitLoop tbl ndates) pods with
  | .error e => .error e
  | .ok parts => .ok parts.flatten

/-- Concrete settlement table for exercising the forecast: one column,
the mandatory 2022-01-07 row plus two surveys ten days apart. -/
def rowsC3 : List SRow :=
  [(⟨2022, excludedOrd⟩, [some 0]), (⟨1, 10⟩, [some 0]), (⟨1, 20⟩, [some (1/3)])]

/-- Concrete settlement table with two columns; the second column misses
one reading inside the forecast window. -/
def rowsC4 : List SRow :=
  [(⟨2022, excludedOrd⟩, [some 0, some 0]), (⟨1, 10⟩, [some 0, none]),
   (⟨1, 20⟩, [some 1, some 1])]

/-- Concrete settlement column, dated by ordinal: the two dropped 2010
surveys, then three surveys of which the last two share a timestamp. -/
def rowsC5 : List DRow :=
  [(ord20101102, some 0), (ord20101103, some 5), (0, some 0),
   (365, some (1/36)), (365, some 1)]

/-- Concrete elevation table whose A pod has only two (degenerate)
points while its B pod has three points in general position. -/
def tblC8bad : List MPData :=
  [⟨"A1-1", 0, 0, [some 1]⟩, ⟨"A1-2", 1, 0, [some 2]⟩,
   ⟨"B1-1", 0, 0, [some 1]⟩, ⟨"B1-2", 1, 0, [some 2]⟩, ⟨"B1-3", 0, 1, [some 3]⟩]

/-- Concrete elevation table with well-posed pod geometry; the A pod is
missing one elevation reading on the single survey date. -/
def tblC8ok : List MPData :=
  [⟨"A1-1", 0, 0, [none]⟩, ⟨"A1-2", 1, 0, [some 1]⟩, ⟨"A1-3", 0, 1, [some 2]⟩,
   ⟨"B1-1", 0, 0, [some 1]⟩, ⟨"B1-2", 1, 0, [some 2]⟩, ⟨"B1-3", 0, 1, [some 3]⟩]

theorem aux_getElem?_zipWith (f : α → β → γ) (l₁ : List α) (l₂ : List β)
    (n : ℕ) (a : α) (b : β) (h1 : l₁[n]? = some a) (h2 : l₂[n]? = some b) :
    (List.zipWith f l₁ l₂)[n]? = some (f a b) := by
  rw [List.getElem?_zipWith, h1, h2]

theorem aux_getD_map_range (g : ℕ → α) (n j : ℕ) (d : α) (h : j < n) :
    ((List.range n).map g).getD j d = g j := by
  rw [List.getD_eq_getElem?_getD, List.getElem?_map, List.getElem?_range h]
  rfl

theorem aux_getD_map_range_ge (g : ℕ → α) (n j : ℕ) (d : α) (h : n ≤ j) :
    ((List.range n).map g).getD j d = d := by
  rw [List.getD_eq_getElem?_getD, List.getElem?_eq_none]
  · rfl
  · simpa using h

theorem aux_sum_map_sub (l : List ℚ) (m : ℚ) :
    (l.map (fun z => z - m)).sum = l.sum - (l.length : ℚ) * m := by
  induction l with
  | nil => simp
  | cons a t ih =>
      simp [ih]
      ring

theorem aux_filterMap_map (f : ℚ → ℚ) (zs : Col) :
    (zs.map (Option.map f)).filterMap id = (zs.filterMap id).map f := by
  induction zs with
  | nil => simp
  | cons a t ih => cases a <;> simp [ih]

theorem aux_residual_sum (pts : List (ℚ × ℚ × ℚ)) (a b c : ℚ) :
    (pts.map (fun p => p.2.2 - (a * p.1 + b * p.2.1 + c))).sum
      = sumBy pts (fun p => p.2.2)
        - (a * sumBy pts (fun p => p.1) + b * sumBy pts (fun p => p.2.1)
           + c * (pts.length : ℚ)) := by
  induction pts with
  | nil => simp [sumBy]
  | cons p t ih =>
      simp [sumBy] at ih ⊢
      rw [ih]
      ring

theorem aux_forEachE_ok_get (f : α → Except ε β) :
    ∀ (l : List α) (out : List β), forEachE f l = .ok out →
      ∀ (n : ℕ) (a : α), l[n]? = some a →
        ∃ b, f a = .ok b ∧ out[n]? = some b := by
  intro l
  induction l with
  | nil => intro out _ n a h; simp at h
  | cons x t ih =>
      intro out hok n a hget
      cases hfx : f x with
      | error e => simp [forEachE, hfx] at hok
      | ok b =>
          cases hrec : forEachE f t with
          | error e => simp [forEachE, hfx, hrec] at hok
          | ok bs =>
              simp [forEachE, hfx, hrec] at hok
              subst hok
              cases n with
              | zero =>
                  simp at hget
                  subst hget
                  exact ⟨b, hfx, by simp⟩
              | succ n =>
                  simp at hget ⊢
                  exact ih bs hrec n a hget

theorem aux_forEachE_ok_mem (f : α → Except ε β) :
    ∀ (l : List α) (out : List β), forEachE f l = .ok out →
      ∀ a ∈ l, ∃ b, f a = .ok b ∧ b ∈ out := by
  intro l
  induction l with
  | nil => intro out _ a ha; simp at ha
  | cons x t ih =>
      intro out hok a ha
      cases hfx : f x with
      | error e => simp [forEachE, hfx] at hok
      | ok b =>
          cases hrec : forEachE f t with
          | error e => simp [forEachE, hfx, hrec] at hok
          | ok bs =>
              simp [forEachE, hfx, hrec] at hok
              subst hok
              rcases List.mem_cons.mp ha with h | h
              · subst h; exact ⟨b, hfx, List.mem_cons_self _ _⟩
              · rcases ih bs hrec a h with ⟨b', hb', hmem⟩
                exact ⟨b', hb', List.mem_cons_of_mem _ hmem⟩

theorem aux_forEachE_not_ok (f : α → Except ε β) :
    ∀ (l : List α) (a : α), a ∈ l → ∀ (e : ε), f a = .error e →
      ∀ out, forEachE f l ≠ .ok out := by
  intro l
  induction l with
  | nil => intro a ha; simp at ha
  | cons x t ih =>
      intro a ha e he out hok
      cases hfx : f x with
      | error e' => simp [forEachE, hfx] at hok
      | ok b =>
          cases hrec : forEachE f t with
          | error e' => simp [forEachE, hfx, hrec] at hok
          | ok bs =>
              rcases List.mem_cons.mp ha with h | h
              · subst h; rw [hfx] at he; cases he
              · exact ih a h e he bs hrec

theorem aux_forEachE_keys (f : α → Except ε β) (k : β → γ) (g : α → γ) :
    ∀ (l : List α) (out : List β),
      (∀ a ∈ l, ∀ b, f a = .ok b → k b = g a) →
      forEachE f l = .ok out → out.map k = l.map g := by
  intro l
  induction l with
  | nil =>
      intro out _ hok
      simp [forEachE] at hok
      subst hok; rfl
  | cons x t ih =>
      intro out hkey hok
      cases hfx : f x with
      | error e => simp [forEachE, hfx] at hok
      | ok b =>
          cases hrec : forEachE f t with
          | error e => simp [forEachE, hfx, hrec] at hok
          | ok bs =>
              simp [forEachE, hfx, hrec] at hok
              subst hok
              simp only [List.map_cons]
              rw [hkey x (List.mem_cons_self _ _) b hfx,
                ih bs (fun a ha => hkey a (List.mem_cons_of_mem _ ha)) hrec]

theorem aux_exceptUnit (x : Except Unit β) : x = .error () ∨ ∃ b, x = .ok b := by
  cases x with
  | error e => cases e; exact Or.inl rfl
  | ok b => exact Or.inr ⟨b, rfl⟩

theorem aux_pySlice_length_le (l : List α) (a b : ℤ) :
    (pySlice l a b).length ≤ l.length := by
  simp only [pySlice, List.length_drop, List.length_take]
  omega

theorem aux_windowRows_le (rows : List SRow) (ns : ℕ) :
    (windowRows rows ns).length ≤ (cleanRows rows).length :=
  aux_pySlice_length_le _ _ _

theorem aux_allEqual_false (xs : List ℤ) (h : allEqual xs = false) :
    2 ≤ xs.length := by
  cases xs with
  | nil => simp [allEqual] at h
  | cons x t =>
      cases t with
      | nil => simp [allEqual] at h
      | cons y s => simp only [List.length_cons]; omega

theorem aux_firstValue_eq (col : Col) :
    ∀ (i : ℕ) (v : ℚ), col[i]? = some (some v) →
      (∀ j, j < i → col[j]? = some none) → firstValue col = some v := by
  induction col with
  | nil => intro i v h _; simp at h
  | cons c t ih =>
      intro i v h hprev
      cases i with
      | zero =>
          simp at h
          subst h
          simp [firstValue]
      | succ i =>
          have h0 : c = none := by
            have := hprev 0 (Nat.succ_pos i)
            simpa using this
          subst h0
          simp at h
          have := ih i v h (fun j hj => by
            have := hprev (j + 1) (by omega)
            simpa using this)
          simpa [firstValue] using this

theorem aux_filterMap_full (l : Col) (h : l.any Option.isNone = false) :
    (l.filterMap id).length = l.length := by
  induction l with
  | nil => simp
  | cons a t ih =>
      cases a with
      | none => simp at h
      | some v =>
          simp only [List.any_cons, Option.isNone_some, Bool.false_or] at h
          have hc : List.filterMap id (some v :: t) = v :: List.filterMap id t := by simp
          rw [hc, List.length_cons, List.length_cons, ih h]

theorem aux_map_pair_entry (L : List ℤ) (F : ℤ → List (Option ℚ)) (k : ℕ)
    (x : ℤ) (vals : List (Option ℚ))
    (h : (L.map (fun x => (x, F x)))[k]? = some (x, vals)) : vals = F x := by
  rw [List.getElem?_map] at h
  cases hx : L[k]? with
  | none => rw [hx] at h; cases h
  | some x0 =>
      rw [hx] at h
      simp at h
      obtain ⟨h1, h2⟩ := h
      subst h1
      exact h2.symm

theorem aux_map_flatten (f : α → β) (L : List (List α)) :
    (L.flatten).map f = (L.map (List.map f)).flatten := by
  induction L with
  | nil => simp
  | cons a t ih => simp [ih]

theorem calc_forecast_ok_spec (rows : List SRow) (ns ny : ℕ)
    (out : List (ℤ × List (Option ℚ)))
    (hok : calc_forecast_settlement rows ns ny = .ok out) :
    ∃ lastRow rN, (windowRows rows ns).getLast? = some lastRow ∧
      (windowRows rows ns)[ns - 1]? = some rN ∧
      allEqual (windowXs rows ns) = false ∧
      out = (rN.1.ord :: (List.range ny).map (fun k => jan1Ord (lastRow.1.year + (k : ℤ) + 1))).map
        (fun x => (x, (List.range lastRow.2.length).map
          (fun j => forecastColumn (colStart rows ns j) (colSlope rows ns j) (x - rN.1.ord)))) := by
  unfold calc_forecast_settlement at hok
  split at hok
  · cases hok
  · split at hok
    · rename_i lastRow rN heq₁ heq₂
      split at hok
      · cases hok
      · rename_i hne
        refine ⟨lastRow, rN, heq₁, heq₂, ?_, ?_⟩
        · exact Bool.not_eq_true _ ▸ Bool.eq_false_iff.mpr (fun hc => hne hc)
        · injection hok with h
          exact h.symm
    · cases hok

/-- C1: for every point column with at least one non-missing reading, the
settlement engine takes the first non-missing reading (in chronological
order) as the baseline; every settlement cell is `baseline - reading`, and
at the column's first valid survey index the settlement value is exactly 0. -/
theorem C1_settlement_baseline (col : Col) (i : ℕ) (v : ℚ)
    (hfirst : col[i]? = some (some v))
    (hprev : ∀ j, j < i → col[j]? = some none) :
    firstValue col = some v ∧
    (settlementCol col)[i]? = some (some 0) ∧
    (∀ (k : ℕ) (w : ℚ), col[k]? = some (some w) →
      (settlementCol col)[k]? = some (some (v - w))) := by
  have hfv := aux_firstValue_eq col i v hfirst hprev
  refine ⟨hfv, ?_, ?_⟩
  · simp [settlementCol, List.getElem?_map, hfirst, hfv]
  · intro k w hk
    simp [settlementCol, List.getElem?_map, hk, hfv]

/-- C1 witness: a column whose first reading is missing and whose first
valid reading is 5; its settlement is 0 there and `5 - 3` afterwards. -/
theorem C1_settlement_baseline_witness :
    (settlementCol [none, some 5, some 3])[1]? = some (some 0) ∧
    (settlementCol [none, some 5, some 3])[2]? = some (some ((5 : ℚ) - 3)) := by
  have h := C1_settlement_baseline [none, some 5, some 3] 1 5 (by decide)
    (by intro j hj
        have hj0 : j = 0 := by omega
        subst hj0
        decide)
  exact ⟨h.2.1, h.2.2 2 3 (by decide)⟩

/-- C2 counterexample: a beam differential built from a missing reading is
missing, yet the direction table gives it the concrete angle 180, the
symbol table the concrete symbol "x", and the colour table the concrete
colour "blue" -- derived tables do replace missing values with concrete
values, refuting the claim for the direction/classification tables. -/
theorem C2_missing_cex :
    beamDiffVal none (some 1) = none ∧
    beamDirVal (beamDiffVal none (some 1)) = 180 ∧
    beamSymbolVal (beamDiffVal none (some 1)) = "x" ∧
    beamDiffColorVal (beamDiffVal none (some 1)) = "blue" :=
  ⟨rfl, rfl, rfl, rfl⟩

/-- C2 amended: missing readings propagate as missing through every
numeric derived table (settlement, delta, rate, differential, slope), but
the direction/symbol/colour classification tables map missing values to
the concrete defaults 180, "x" and "blue" respectively. -/
theorem C2_missing_amended :
    (∀ (col : Col) (i : ℕ), col[i]? = some none →
        (settlementCol col)[i]? = some none) ∧
    (∀ p : Option ℚ, (osub none p).map (· * 12) = none ∧
        (osub p none).map (· * 12) = none) ∧
    (∀ d : Option ℤ, rateOf none d = RateVal.missing) ∧
    (∀ v : Option ℚ, beamDiffVal none v = none ∧ beamDiffVal v none = none) ∧
    (∀ (v : Option ℚ) (L : ℚ), beamSlopeVal none v L = none ∧
        beamSlopeVal v none L = none) ∧
    (beamDirVal none = 180 ∧ beamSymbolVal none = "x" ∧
        beamDiffColorVal none = "blue" ∧ beamSlopeColorVal none none = "blue") := by
  refine ⟨?_, ?_, ?_, ?_, ?_, rfl, rfl, rfl, rfl⟩
  · intro col i h
    cases hfv : firstValue col <;>
      simp only [settlementCol, List.getElem?_map, h, hfv, Option.map_some']
  · intro p
    exact ⟨by cases p <;> rfl, by cases p <;> rfl⟩
  · intro d
    cases d <;> rfl
  · intro v
    exact ⟨by cases v <;> rfl, by cases v <;> rfl⟩
  · intro v L
    exact ⟨by cases v <;> rfl, by cases v <;> rfl⟩

/-- C2 amendment witness: a concrete missing settlement entry stays
missing, and a missing delta yields a missing rate. -/
theorem C2_missing_amended_witness :
    (settlementCol [some 1, none])[1]? = some none ∧
    rateOf none (some 0) = RateVal.missing :=
  ⟨C2_missing_amended.1 [some 1, none] 1 (by decide),
   C2_missing_amended.2.2.1 (some 0)⟩

/-- C9: the source's slope-severity colouring (line 595 of `utils.py`)
takes its fourth condition from `abs(beamDiff)`, not `abs(beamSlope)`:
at slope 1/5 in/ft (tier 4 by the claim) the colour is the default "blue"
when the differential is 1/10 in, and "red" when it is 1/5 in, so the
tier is not determined by the slope magnitude alone. -/
theorem C9_slope_tier_bug :
    beamSlopeColorVal (some (1/5)) (some (1/10)) = "blue" ∧
    beamSlopeColorVal (some (1/5)) (some (1/5)) = "red" ∧
    beamSlopeColorVal (some (1/5)) (some (1/10)) ≠
      beamSlopeColorVal (some (1/5)) (some (1/5)) := by
  have h1 : beamSlopeColorVal (some (1/5)) (some (1/10)) = "blue" := by
    norm_num [beamSlopeColorVal, absLtF, absGeF, abs_of_pos]
  have h2 : beamSlopeColorVal (some (1/5)) (some (1/5)) = "red" := by
    norm_num [beamSlopeColorVal, absLtF, absGeF, abs_of_pos]
  refine ⟨h1, h2, ?_⟩
  rw [h1, h2]
  decide

/-- C5 counterexample: on a concrete settlement column whose last two
surveys share a timestamp, the rate row at zero elapsed days is `+inf`
(a concrete non-missing value), and on a row with 365 elapsed days the
stored rate is the rounded `0.333`, not the exact `delta/days*365 = 1/3`;
both refute the claim as stated. -/
theorem C5_rate_cex :
    (settlement_rate rowsC5)[2]? = some (365, RateVal.posInf) ∧
    RateVal.posInf ≠ RateVal.missing ∧
    (settlement_rate rowsC5)[1]? = some (365, RateVal.val (333/1000)) ∧
    RateVal.val (333/1000) ≠ RateVal.val ((1/3 : ℚ) / 365 * 365) := by
  refine ⟨by with_unfolding_all rfl, by decide, by with_unfolding_all rfl, ?_⟩
  intro h
  have h' : (333/1000 : ℚ) = (1/3 : ℚ) / 365 * 365 := by injection h
  norm_num at h'

/-- C5 amended: each rate row is `rateOf` of the aligned delta and
elapsed-days rows; for nonzero elapsed days the rate is the
3-decimal-rounded `delta/days*365`; at zero elapsed days it is `+inf` for
a positive delta, `-inf` for a negative delta, and missing (never an
exception) when the delta is zero or missing. -/
theorem C5_rate_amended (rows : List DRow) (i : ℕ) (dte dte2 : ℤ)
    (δ : Option ℚ) (d : Option ℤ)
    (h1 : (settlement_delta rows)[i]? = some (dte, δ))
    (h2 : (diffDaysList rows)[i]? = some (dte2, d)) :
    (settlement_rate rows)[i]? = some (dte, rateOf δ d) ∧
    (∀ (x : ℚ) (k : ℤ), δ = some x → d = some k → k ≠ 0 →
        rateOf δ d = RateVal.val (round3 (x / (k : ℚ) * 365))) ∧
    (∀ x : ℚ, δ = some x → d = some 0 → 0 < x → rateOf δ d = RateVal.posInf) ∧
    (∀ x : ℚ, δ = some x → d = some 0 → x < 0 → rateOf δ d = RateVal.negInf) ∧
    (d = some 0 → (δ = none ∨ δ = some 0) → rateOf δ d = RateVal.missing) := by
  refine ⟨?_, ?_, ?_, ?_, ?_⟩
  · simp only [settlement_rate]
    exact aux_getElem?_zipWith _ _ _ i _ _ h1 h2
  · intro x k hx hk hne
    subst hx; subst hk
    simp [rateOf, hne]
  · intro x hx hd hpos
    subst hx; subst hd
    simp [rateOf, hpos, hpos.ne']
  · intro x hx hd hneg
    subst hx; subst hd
    simp [rateOf, hneg.ne, not_lt.mpr hneg.le]
  · intro hd hδ
    subst hd
    rcases hδ with h | h <;> subst h <;> simp [rateOf]

/-- C5 amendment witness: on the concrete column, the row with 365
elapsed days carries `rateOf` of its delta, and the duplicate-timestamp
row with positive delta carries `+inf`. -/
theorem C5_rate_amended_witness :
    (settlement_rate rowsC5)[1]? = some (365, rateOf (some (1/3)) (some 365)) ∧
    rateOf (some (35/3)) (some 0) = RateVal.posInf := by
  have h := C5_rate_amended rowsC5 1 365 365 (some (1/3)) (some 365)
    (by with_unfolding_all rfl) (by with_unfolding_all rfl)
  have h2 := C5_rate_amended rowsC5 2 365 365 (some (35/3)) (some 0)
    (by with_unfolding_all rfl) (by with_unfolding_all rfl)
  exact ⟨h.1, h2.2.2.1 (35/3) rfl rfl (by norm_num)⟩

/-- C6: the beam slope is the beam differential divided element-wise by
the beam length, with the differential's sign preserved; multiplying the
length by a positive `k` divides the slope by `k`, and the differential
itself never mentions the length. -/
theorem C6_slope_scaling (x y L k : ℚ) (hL : 0 < L) (_hk : 0 < k) :
    beamDiffVal (some x) (some y) = some ((y - x) * 12) ∧
    beamSlopeVal (some x) (some y) L = some ((y - x) * 12 / L) ∧
    (∀ d s : ℚ, beamDiffVal (some x) (some y) = some d →
        beamSlopeVal (some x) (some y) L = some s →
        ((0 < d ↔ 0 < s) ∧ (d < 0 ↔ s < 0))) ∧
    beamSlopeVal (some x) (some y) (k * L) =
      (beamSlopeVal (some x) (some y) L).map (· / k) := by
  refine ⟨rfl, rfl, ?_, ?_⟩
  · intro d s hd hs
    have hd' : (y - x) * 12 = d := Option.some.inj hd
    have hs' : (y - x) * 12 / L = s := Option.some.inj hs
    subst hd'; subst hs'
    constructor
    · constructor
      · intro h; exact div_pos h hL
      · intro h
        have h2 := mul_pos h hL
        rw [div_mul_cancel₀ _ hL.ne'] at h2
        exact h2
    · constructor
      · intro h; exact div_neg_of_neg_of_pos h hL
      · intro h
        have h2 := mul_neg_of_neg_of_pos h hL
        rw [div_mul_cancel₀ _ hL.ne'] at h2
        exact h2
  · show some ((y - x) * 12 / (k * L)) = some ((y - x) * 12 / L / k)
    rw [div_div, mul_comm L k]

/-- C6 witness: concrete instance of the rescaling law at length 2 and
factor 3. -/
theorem C6_slope_scaling_witness :
    beamSlopeVal (some 0) (some 1) (3 * 2) =
      (beamSlopeVal (some 0) (some 1) 2).map (· / 3) ∧
    beamDiffVal (some 0) (some 1) = some (((1 : ℚ) - 0) * 12) :=
  ⟨(C6_slope_scaling 0 1 2 3 (by norm_num) (by norm_num)).2.2.2,
   (C6_slope_scaling 0 1 2 3 (by norm_num) (by norm_num)).1⟩

/-- C3 counterexample: on a concrete one-column table whose last observed
settlement is `1/3`, the forecast entry at the window's final date is the
rounded `0.333`, not the exact last observation, refuting exact
boundary continuity as claimed. -/
theorem C3_forecast_cex :
    calc_forecast_settlement rowsC3 2 1 =
      .ok [(20, [some (333/1000)]), (366, [some (11867/1000)])] ∧
    colStart rowsC3 2 0 = some (1/3) ∧
    (333/1000 : ℚ) ≠ 1/3 := by
  refine ⟨by with_unfolding_all rfl, by with_unfolding_all rfl, by norm_num⟩

/-- C3 amended: every forecast cell of a column whose window is fully
observed equals `round3 (lastObserved + slope * offsetDays)` with the OLS
slope, so the entry at the window's final date is `round3 lastObserved` --
exactly the last observation whenever it has at most three decimal
places. -/
theorem C3_forecast_amended (rows : List SRow) (ns ny : ℕ)
    (out : List (ℤ × List (Option ℚ))) (rN : SRow) (j : ℕ) (s m : ℚ)
    (hok : calc_forecast_settlement rows ns ny = .ok out)
    (hrN : (windowRows rows ns)[ns - 1]? = some rN)
    (hs : colStart rows ns j = some s)
    (hm : colSlope rows ns j = some m)
    (hj : j < ncolsOf rows ns) :
    (∀ (k : ℕ) (x : ℤ) (vals : List (Option ℚ)), out[k]? = some (x, vals) →
        vals.getD j none = some (round3 (s + m * ((x - rN.1.ord : ℤ) : ℚ)))) ∧
    (∃ vals, out[0]? = some (rN.1.ord, vals) ∧
        vals.getD j none = some (round3 s)) ∧
    (∀ t : ℚ, (∃ z : ℤ, t * 1000 = z) → round3 t = t) := by
  obtain ⟨lastRow, rN', hlast, hrN', hne, hout⟩ :=
    calc_forecast_ok_spec rows ns ny out hok
  have hrNeq : rN' = rN := by rw [hrN'] at hrN; exact Option.some.inj hrN
  rw [hrNeq] at hout
  have hncols : ncolsOf rows ns = lastRow.2.length := by simp [ncolsOf, hlast]
  refine ⟨?_, ?_, ?_⟩
  · intro k x vals hk
    rw [hout] at hk
    have hv := aux_map_pair_entry _ _ _ _ _ hk
    rw [hv, aux_getD_map_range _ _ _ _ (by omega : j < lastRow.2.length), hs, hm]
    rfl
  · refine ⟨(List.range lastRow.2.length).map
        (fun j => forecastColumn (colStart rows ns j) (colSlope rows ns j)
          (rN.1.ord - rN.1.ord)), ?_, ?_⟩
    · rw [hout]; simp
    · rw [aux_getD_map_range _ _ _ _ (by omega : j < lastRow.2.length), hs, hm]
      simp [forecastColumn, sub_self]
  · rintro t ⟨z, hz⟩
    unfold round3
    rw [hz, round_intCast, ← hz]
    exact mul_div_cancel_right₀ t (by norm_num)

/-- C3 amendment witness: on the concrete table the boundary cell equals
the rounded last observation. -/
theorem C3_forecast_amended_witness :
    [some ((333 : ℚ)/1000)].getD 0 none =
      some (round3 ((1 : ℚ)/3 + (1/30) * ((((20 : ℤ) - 20) : ℤ) : ℚ))) := by
  have h := C3_forecast_amended rowsC3 2 1
      [(20, [some (333/1000)]), (366, [some (11867/1000)])]
      (⟨1, 20⟩, [some (1/3)]) 0 (1/3) (1/30)
      (by with_unfolding_all rfl) (by with_unfolding_all rfl)
      (by with_unfolding_all rfl) (by with_unfolding_all rfl) (by decide)
  exact h.1 0 20 [some (333/1000)] (by with_unfolding_all rfl)

/-- C4 counterexample: on a concrete table with two available (cleaned)
survey rows, asking for a window of 3 raises `IndexError` -- the engine
does not fall back to using all available rows, and its result differs
from the all-rows forecast. -/
theorem C4_forecast_window_cex :
    calc_forecast_settlement rowsC4 3 1 = .error "IndexError" ∧
    calc_forecast_settlement rowsC4 2 1 =
      .ok [(20, [some 1, none]), (366, [some (178/5), none])] ∧
    calc_forecast_settlement rowsC4 3 1 ≠ calc_forecast_settlement rowsC4 2 1 := by
  have hA : calc_forecast_settlement rowsC4 3 1 = .error "IndexError" := by
    with_unfolding_all rfl
  have hB : calc_forecast_settlement rowsC4 2 1 =
      .ok [(20, [some 1, none]), (366, [some (178/5), none])] := by
    with_unfolding_all rfl
  refine ⟨hA, hB, ?_⟩
  rw [hA, hB]
  simp

/-- C4 amended: when the configured window exceeds the available cleaned
rows the engine raises `IndexError` instead of using all rows; a column
with fewer than two valid readings in the window has a missing slope and
an entirely missing forecast without any exception; and every column's
forecast cell is computed from that column's own window data alone, so
degenerate columns do not affect the others. -/
theorem C4_forecast_window_amended (rows : List SRow) (ns ny : ℕ) :
    ((rows.any (fun r => decide (r.1.ord = excludedOrd))) = true →
      (cleanRows rows).length < ns →
      calc_forecast_settlement rows ns ny = .error "IndexError") ∧
    (∀ (out : List (ℤ × List (Option ℚ))) (j : ℕ),
      calc_forecast_settlement rows ns ny = .ok out →
      ((colVals rows ns j).filterMap id).length < 2 →
      colSlope rows ns j = none ∧
      (∀ (k : ℕ) (x : ℤ) (vals : List (Option ℚ)), out[k]? = some (x, vals) →
        vals.getD j none = none)) ∧
    (∀ (out : List (ℤ × List (Option ℚ))) (j : ℕ) (rN : SRow) (k : ℕ) (x : ℤ)
        (vals : List (Option ℚ)),
      calc_forecast_settlement rows ns ny = .ok out →
      (windowRows rows ns)[ns - 1]? = some rN →
      out[k]? = some (x, vals) → j < ncolsOf rows ns →
      vals.getD j none =
        forecastColumn (colStart rows ns j) (colSlope rows ns j) (x - rN.1.ord)) := by
  refine ⟨?_, ?_, ?_⟩
  · intro hany hlen
    unfold calc_forecast_settlement
    rw [if_neg (by rw [hany]; simp)]
    have hidx : (windowRows rows ns)[ns - 1]? = none := by
      apply List.getElem?_eq_none
      have h1 := aux_windowRows_le rows ns
      omega
    cases hlast : (windowRows rows ns).getLast? with
    | none => rw [hidx]
    | some lastRow => rw [hidx]
  · intro out j hok hcount
    obtain ⟨lastRow, rN, hlast, hrN, hne, hout⟩ :=
      calc_forecast_ok_spec rows ns ny out hok
    have hlen2 : 2 ≤ (windowXs rows ns).length := aux_allEqual_false _ hne
    have hlencol : (colVals rows ns j).length = (windowXs rows ns).length := by
      simp [colVals, windowXs]
    have hany : (colVals rows ns j).any Option.isNone = true := by
      cases hb : (colVals rows ns j).any Option.isNone with
      | false =>
          have := aux_filterMap_full _ hb
          omega
      | true => rfl
    have hslope : colSlope rows ns j = none := by
      simp [colSlope, linregressSlope, hany]
    refine ⟨hslope, ?_⟩
    intro k x vals hk
    rw [hout] at hk
    have hv := aux_map_pair_entry _ _ _ _ _ hk
    by_cases hjlt : j < lastRow.2.length
    · rw [hv, aux_getD_map_range _ _ _ _ hjlt, hslope]
      cases colStart rows ns j <;> rfl
    · rw [hv, aux_getD_map_range_ge _ _ _ _ (by omega)]
  · intro out j rN k x vals hok hrN hk hj
    obtain ⟨lastRow, rN', hlast, hrN', hne, hout⟩ :=
      calc_forecast_ok_spec rows ns ny out hok
    have hrNeq : rN' = rN := by rw [hrN'] at hrN; exact Option.some.inj hrN
    rw [hrNeq] at hout
    have hncols : ncolsOf rows ns = lastRow.2.length := by simp [ncolsOf, hlast]
    rw [hout] at hk
    have hv := aux_map_pair_entry _ _ _ _ _ hk
    rw [hv, aux_getD_map_range _ _ _ _ (by omega : j < lastRow.2.length)]

/-- C4 amendment witness: the concrete table errors at window 3, and its
half-missing second column has a missing regression slope at window 2. -/
theorem C4_forecast_window_amended_witness :
    calc_forecast_settlement rowsC4 3 1 = .error "IndexError" ∧
    colSlope rowsC4 2 1 = none := by
  refine ⟨(C4_forecast_window_amended rowsC4 3 1).1 (by decide) (by decide), ?_⟩
  exact ((C4_forecast_window_amended rowsC4 2 1).2.1
    [(20, [some 1, none]), (366, [some (178/5), none])] 1
    (by with_unfolding_all rfl) (by decide)).1

/-- C7: the mean-plane residuals of a pod column sum to exactly 0 over
the valid entries, and whenever a least-squares plane (with intercept)
is fit, its residuals sum to exactly 0 -- exact in this rational
embedding, hence within any floating-point tolerance. -/
theorem C7_plane_residuals (zs : Col) (pts : List (ℚ × ℚ × ℚ)) (a b c : ℚ)
    (hz : (zs.filterMap id).length ≠ 0)
    (hfit : planeFit pts = some (a, b, c)) :
    ((meanResiduals zs).filterMap id).sum = 0 ∧
    (pts.map (fun p => p.2.2 - (a * p.1 + b * p.2.1 + c))).sum = 0 := by
  constructor
  · have hlen : (((zs.filterMap id).length : ℚ)) ≠ 0 := Nat.cast_ne_zero.mpr hz
    simp only [meanResiduals]
    rw [aux_filterMap_map, aux_sum_map_sub]
    simp only [meanValid]
    field_simp
  · unfold planeFit at hfit
    split at hfit
    · cases hfit
    · rename_i hd
      have h1 := congrArg Prod.fst (Option.some.inj hfit)
      have h2 := congrArg (fun t : ℚ × ℚ × ℚ => t.2.1) (Option.some.inj hfit)
      have h3 := congrArg (fun t : ℚ × ℚ × ℚ => t.2.2) (Option.some.inj hfit)
      simp only at h1 h2 h3
      rw [aux_residual_sum, ← h1, ← h2, ← h3]
      simp only [detOf, xyOf, sumBy, List.map_map, Function.comp_def,
        List.length_map] at hd
      simp only [fitCoeffs, sumBy]
      set n : ℚ := ((pts.length : ℚ)) with hn
      set sx := (pts.map fun p => p.1).sum with hsx
      set sy := (pts.map fun p => p.2.1).sum with hsy
      set sz := (pts.map fun p => p.2.2).sum with hsz
      set sxx := (pts.map fun p => p.1 * p.1).sum with hsxx
      set sxy := (pts.map fun p => p.1 * p.2.1).sum with hsxy
      set syy := (pts.map fun p => p.2.1 * p.2.1).sum with hsyy
      set sxz := (pts.map fun p => p.1 * p.2.2).sum with hsxz
      set syz := (pts.map fun p => p.2.1 * p.2.2).sum with hsyz
      field_simp [hd]
      ring

/-- C7 witness: a three-reading column (one missing) and a three-point
pod lying exactly on the plane `z = x + 2y`. -/
theorem C7_plane_residuals_witness :
    ((meanResiduals [some 1, none, some 3]).filterMap id).sum = 0 ∧
    (([((0 : ℚ), (0 : ℚ), (0 : ℚ)), (1, 0, 1), (0, 1, 2)] : List (ℚ × ℚ × ℚ)).map
        (fun p => p.2.2 - (1 * p.1 + 2 * p.2.1 + 0))).sum = 0 :=
  C7_plane_residuals [some 1, none, some 3]
    [((0 : ℚ), (0 : ℚ), (0 : ℚ)), (1, 0, 1), (0, 1, 2)] 1 2 0
    (by decide) (by with_unfolding_all rfl)

/-- C8 counterexample: a table whose A pod has only two monitor points
(singular normal equations) makes the plane-fit engine raise
`LinAlgError` and abort everything, although the B pod's fit on its own
succeeds -- the degenerate pod/date is not skipped and the other pod does
not continue. -/
theorem C8_planefit_cex :
    calc_plane_error_fit tblC8bad 1 = .error () ∧
    fitErrorsCol (coords (podFilter 'B' tblC8bad)) (colZ (podFilter 'B' tblC8bad) 0) =
      .ok [some 0, some 0, some 0] := by
  refine ⟨by with_unfolding_all rfl, by with_unfolding_all rfl⟩

/-- C8 amended: a pod whose coordinates make the normal-equation matrix
singular (fewer than 3 points, or collinear points) raises and aborts the
whole computation; whereas a pod with well-posed coordinates but a
missing elevation on some date (hence fewer than 3 valid points) yields
an all-missing residual column for that date, without an exception and
with every other pod/date still produced. -/
theorem C8_planefit_amended (tbl : List MPData) (ndates : ℕ) :
    (∀ pod, pod ∈ pods → detOf (coords (podFilter pod tbl)) = 0 → 0 < ndates →
        calc_plane_error_fit tbl ndates = .error ()) ∧
    (∀ (out : List (Char × ℕ × Col)) (pod : Char) (i : ℕ) (errs : Col),
        calc_plane_error_fit tbl ndates = .ok out → pod ∈ pods → i < ndates →
        fitErrorsCol (coords (podFilter pod tbl)) (colZ (podFilter pod tbl) i) = .ok errs →
        ((pod, i, errs) ∈ out ∧
          ((colZ (podFilter pod tbl) i).any Option.isNone = true →
            errs = (colZ (podFilter pod tbl) i).map (fun _ => none)))) := by
  constructor
  · intro pod hpod hdet hn
    have hfit0 : fitErrorsCol (coords (podFilter pod tbl)) (colZ (podFilter pod tbl) 0) =
        .error () := by
      unfold fitErrorsCol
      rw [if_pos hdet]
    have hcol : podFitCol tbl pod 0 = .error () := by
      unfold podFitCol
      rw [hfit0]
    have h0 : (0 : ℕ) ∈ List.range ndates := List.mem_range.mpr hn
    have hloopNot := aux_forEachE_not_ok (podFitCol tbl pod) (List.range ndates) 0 h0 () hcol
    have hloop : podFitLoop tbl ndates pod = .error () := by
      rcases aux_exceptUnit (podFitLoop tbl ndates pod) with h | ⟨o, h⟩
      · exact h
      · exact absurd h (hloopNot o)
    have houterNot := aux_forEachE_not_ok (podFitLoop tbl ndates) pods pod hpod () hloop
    rcases aux_exceptUnit (forEachE (podFitLoop tbl ndates) pods) with h | ⟨o, h⟩
    · unfold calc_plane_error_fit
      rw [h]
    · exact absurd h (houterNot o)
  · intro out pod i errs hok hpod hi hfit
    cases houter : forEachE (podFitLoop tbl ndates) pods with
    | error e =>
        unfold calc_plane_error_fit at hok
        rw [houter] at hok
        cases hok
    | ok parts =>
        unfold calc_plane_error_fit at hok
        rw [houter] at hok
        have hout : parts.flatten = out := by injection hok
        obtain ⟨partPod, hloopOk, hmemP⟩ :=
          aux_forEachE_ok_mem (podFitLoop tbl ndates) pods parts houter pod hpod
        obtain ⟨entry, hcolOk, hmemE⟩ :=
          aux_forEachE_ok_mem (podFitCol tbl pod) (List.range ndates) partPod hloopOk i
            (List.mem_range.mpr hi)
        have hentry : entry = (pod, i, errs) := by
          unfold podFitCol at hcolOk
          rw [hfit] at hcolOk
          injection hcolOk with h
          exact h.symm
        subst hentry
        constructor
        · rw [← hout]
          exact List.mem_flatten.mpr ⟨partPod, hmemP, hmemE⟩
        · intro hany
          unfold fitErrorsCol at hfit
          by_cases hdet : detOf (coords (podFilter pod tbl)) = 0
          · rw [if_pos hdet] at hfit
            cases hfit
          · rw [if_neg hdet, if_pos hany] at hfit
            injection hfit with h
            exact h.symm

/-- C8 amendment witness: the concrete degenerate-A table aborts with
the error, while on the well-posed table the A pod's missing-reading
column is produced, all-missing, alongside the B pod's output. -/
theorem C8_planefit_amended_witness :
    calc_plane_error_fit tblC8bad 1 = .error () ∧
    ('A', 0, ([none, none, none] : Col)) ∈
      ([('A', 0, ([none, none, none] : Col)),
        ('B', 0, ([some 0, some 0, some 0] : Col))] : List (Char × ℕ × Col)) := by
  constructor
  · exact (C8_planefit_amended tblC8bad 1).1 'A' (by decide)
      (by with_unfolding_all rfl) (by decide)
  · exact ((C8_planefit_amended tblC8ok 1).2
      [('A', 0, [none, none, none]), ('B', 0, [some 0, some 0, some 0])]
      'A' 0 [none, none, none]
      (by with_unfolding_all rfl) (by decide) (by decide)
      (by with_unfolding_all rfl)).1

/-- C10: the plane-fit engine iterates exactly over the two letter groups
'A' and 'B', producing one fit per letter per survey column; a point
belongs to a group whenever the letter occurs anywhere in its identifier
(substring containment) -- e.g. a point named "BA-1" is included in the
'A' group although its identifier does not start with "A". -/
theorem C10_pod_grouping :
    pods = ['A', 'B'] ∧
    (∀ (pod : Char) (tbl : List MPData) (r : MPData),
        r ∈ podFilter pod tbl ↔ r ∈ tbl ∧ r.name.contains pod = true) ∧
    (podFilter 'A' [⟨"BA-1", 0, 0, []⟩] = [⟨"BA-1", 0, 0, []⟩] ∧
        ("BA-1".startsWith "A") = false) ∧
    (∀ (tbl : List MPData) (nd : ℕ) (out : List (Char × ℕ × Col)),
        calc_plane_error_fit tbl nd = .ok out →
        out.map (fun t => (t.1, t.2.1)) =
          (List.range nd).map (fun i => ('A', i)) ++
          (List.range nd).map (fun i => ('B', i))) := by
  refine ⟨rfl, ?_, ⟨by with_unfolding_all rfl, by with_unfolding_all rfl⟩, ?_⟩
  · intro pod tbl r
    exact List.mem_filter
  · intro tbl nd out hok
    cases houter : forEachE (podFitLoop tbl nd) pods with
    | error e =>
        unfold calc_plane_error_fit at hok
        rw [houter] at hok
        cases hok
    | ok parts =>
        unfold calc_plane_error_fit at hok
        rw [houter] at hok
        have hout : parts.flatten = out := by injection hok
        have hkeysInner : ∀ pod ∈ pods, ∀ part, podFitLoop tbl nd pod = .ok part →
            part.map (fun t => (t.1, t.2.1)) = (List.range nd).map (fun i => (pod, i)) := by
          intro pod _ part hpart
          refine aux_forEachE_keys (podFitCol tbl pod) _ _ (List.range nd) part ?_ hpart
          intro i _ b hb
          cases hfi : fitErrorsCol (coords (podFilter pod tbl)) (colZ (podFilter pod tbl) i) with
          | error e =>
              unfold podFitCol at hb
              rw [hfi] at hb
              cases hb
          | ok errs =>
              unfold podFitCol at hb
              rw [hfi] at hb
              injection hb with h
              rw [← h]
        have hkeysOuter : parts.map (fun part => part.map (fun t => (t.1, t.2.1))) =
            pods.map (fun pod => (List.range nd).map (fun i => (pod, i))) := by
          refine aux_forEachE_keys (podFitLoop tbl nd) _ _ pods parts ?_ houter
          intro pod hp part hpart
          exact hkeysInner pod hp part hpart
        rw [← hout, aux_map_flatten, hkeysOuter]
        simp [pods]

/-- C10 witness: on the concrete well-posed table with one survey date,
the output keys are exactly ('A', 0) then ('B', 0). -/
theorem C10_pod_grouping_witness :
    (([('A', 0, ([none, none, none] : Col)),
        ('B', 0, ([some 0, some 0, some 0] : Col))] : List (Char × ℕ × Col)).map
      (fun t => (t.1, t.2.1)))
      = (List.range 1).map (fun i => ('A', i)) ++ (List.range 1).map (fun i => ('B', i)) :=
  C10_pod_grouping.2.2.2 tblC8ok 1
    [('A', 0, [none, none, none]), ('B', 0, [some 0, some 0, some 0])]
    (by with_unfolding_all rfl)

end SPSF
